import Mathlib

/-!
Shallow embedding of the WordPress→Liferay migration scripts
(`create_folders.py`, `create_news.py`, `get_categories_wordpress.py`).

Strings are modelled as `List Char`, HTTP interactions as explicit
response values or response streams, file persistence as explicit list
state, and Python exceptions as `Option`/`Except` results.
-/

namespace Migrador

/-! ## Folder-name sanitization (`create_folders.py`, `sanitize_folder_title`) -/

/-- Characters removed by `sanitize_folder_title`; the Python raw string
`r'<>:"/\\|?*'` contains the backslash twice, which we keep. -/
def invalid_chars : List Char := ['<', '>', ':', '"', '/', '\\', '\\', '|', '?', '*']

/-- Reserved folder names from `sanitize_folder_title`. -/
def reserved_names : List (List Char) :=
  ["null", "con", "prn", "aux", "nul", "com1", "com2", "com3", "com4", "com5",
   "com6", "com7", "com8", "com9", "lpt1", "lpt2", "lpt3", "lpt4", "lpt5",
   "lpt6", "lpt7", "lpt8", "lpt9"].map String.toList

/-- The sequential `title.replace(char, "")` loop over `invalid_chars`. -/
def removeInvalid (s : List Char) : List Char :=
  invalid_chars.foldl (fun acc c => acc.filter (fun x => x ≠ c)) s

/-- One left-to-right scan of Python `str.replace(pat, rep)` for a nonempty
pattern, with fuel bounding the number of consumed input characters. -/
def strReplaceFuel (pat rep : List Char) : Nat → List Char → List Char
  | _, [] => []
  | 0, s => s
  | fuel + 1, c :: rest =>
    if pat ≠ [] ∧ (c :: rest).take pat.length = pat then
      rep ++ strReplaceFuel pat rep fuel ((c :: rest).drop pat.length)
    else
      c :: strReplaceFuel pat rep fuel rest

/-- Python `s.replace(pat, rep)`.  An empty pattern interleaves the
replacement around every character, as Python does. -/
def strReplace (s pat rep : List Char) : List Char :=
  if pat = [] then rep ++ s.foldr (fun c acc => c :: (rep ++ acc)) []
  else strReplaceFuel pat rep s.length s

/-- The processing of `sanitize_folder_title` before the reserved-word
check: remove invalid characters, trim a trailing `..`, and remove the
substrings `../` and `/...`. -/
def strippedTitle (title : List Char) : List Char :=
  let t1 := removeInvalid title
  let t2 := if t1.drop (t1.length - 2) = ['.', '.'] then t1.take (t1.length - 2) else t1
  let t3 := strReplace t2 "../".toList []
  strReplace t3 "/...".toList []

/-- Model of `sanitize_folder_title`; `none` models the `ValueError` raised on an
empty title. -/
def sanitize_folder_title (title : List Char) : Option (List Char) :=
  if title = [] then none
  else
    let t := strippedTitle title
    let t' := if t.map Char.toLower ∈ reserved_names then t ++ "_safe".toList else t
    some (t'.take 255)

/-! ### Helper lemmas about the sanitizer -/

theorem foldl_filter_sublist (cs : List Char) (s : List Char) :
    List.Sublist (cs.foldl (fun acc c => acc.filter (fun x => x ≠ c)) s) s := by
  induction cs generalizing s with
  | nil => simp
  | cons c cs ih =>
    simp only [List.foldl_cons]
    exact (ih (s.filter (fun x => x ≠ c))).trans (List.filter_sublist s)

theorem not_mem_foldl_filter (cs : List Char) (s : List Char) (x : Char)
    (hx : x ∈ cs.foldl (fun acc c => acc.filter (fun x => x ≠ c)) s) : x ∉ cs := by
  induction cs generalizing s with
  | nil => simp
  | cons c cs ih =>
    simp only [List.foldl_cons] at hx
    have hmem : x ∈ s.filter (fun y => y ≠ c) :=
      (foldl_filter_sublist cs _).subset hx
    have hne : x ≠ c := by
      have := List.of_mem_filter hmem
      simpa using this
    simp only [List.mem_cons]
    rintro (rfl | h)
    · exact hne rfl
    · exact ih _ hx h

theorem removeInvalid_sublist (s : List Char) : List.Sublist (removeInvalid s) s :=
  foldl_filter_sublist _ s

theorem not_mem_invalid_of_mem_removeInvalid {s : List Char} {x : Char}
    (hx : x ∈ removeInvalid s) : x ∉ invalid_chars :=
  not_mem_foldl_filter _ s x hx

theorem strReplaceFuel_no_match {pat : List Char} (rep : List Char) {bad : Char}
    (hbad : bad ∈ pat) :
    ∀ (fuel : Nat) (s : List Char), bad ∉ s → strReplaceFuel pat rep fuel s = s := by
  intro fuel
  induction fuel with
  | zero => intro s _; cases s <;> rfl
  | succ fuel ih =>
    intro s hs
    cases s with
    | nil => rfl
    | cons c rest =>
      have hcond : ¬(pat ≠ [] ∧ (c :: rest).take pat.length = pat) := by
        rintro ⟨-, htake⟩
        exact hs (List.take_subset _ _ (htake ▸ hbad))
      rw [strReplaceFuel, if_neg hcond]
      have : bad ∉ rest := fun h => hs (List.mem_cons_of_mem _ h)
      rw [ih rest this]

theorem strReplace_no_match {pat : List Char} (s rep : List Char) {bad : Char}
    (hbad : bad ∈ pat) (hs : bad ∉ s) : strReplace s pat rep = s := by
  have hpat : pat ≠ [] := by rintro rfl; exact List.not_mem_nil bad hbad
  rw [strReplace, if_neg hpat, strReplaceFuel_no_match rep hbad s.length s hs]

/-- After removing the invalid characters (which include `/`), the two
substring replacements of `sanitize_folder_title` do nothing. -/
theorem strippedTitle_eq (title : List Char) :
    strippedTitle title =
      (if (removeInvalid title).drop ((removeInvalid title).length - 2) = ['.', '.'] then
        (removeInvalid title).take ((removeInvalid title).length - 2)
      else removeInvalid title) := by
  have hslash : '/' ∈ invalid_chars := by decide
  set t1 := removeInvalid title with ht1
  have h1 : '/' ∉ t1 := fun h => not_mem_invalid_of_mem_removeInvalid h hslash
  set t2 := if t1.drop (t1.length - 2) = ['.', '.'] then t1.take (t1.length - 2) else t1 with ht2
  have h2 : '/' ∉ t2 := by
    rw [ht2]
    split
    · exact fun h => h1 (List.take_subset _ _ h)
    · exact h1
  have hm1 : '/' ∈ "../".toList := by decide
  have hm2 : '/' ∈ "/...".toList := by decide
  show strReplace (strReplace t2 "../".toList []) "/...".toList [] = t2
  rw [strReplace_no_match t2 [] hm1 h2, strReplace_no_match t2 [] hm2 h2]

theorem strippedTitle_sublist (title : List Char) :
    List.Sublist (strippedTitle title) (removeInvalid title) := by
  rw [strippedTitle_eq]
  split
  · exact List.take_sublist _ _
  · exact List.Sublist.refl _

theorem not_mem_invalid_of_mem_strippedTitle {title : List Char} {x : Char}
    (hx : x ∈ strippedTitle title) : x ∉ invalid_chars :=
  not_mem_invalid_of_mem_removeInvalid ((strippedTitle_sublist title).subset hx)

/-! ## Unique subfolder names and `create_or_get_subfolder` (`create_folders.py`) -/

/-- Decimal digits of a positive number, most significant first;
structural fuel makes the definition kernel-reducible. -/
def natToCharsAux : Nat → Nat → List Char
  | 0, _ => []
  | fuel + 1, n => if n = 0 then [] else natToCharsAux fuel (n / 10) ++ [Char.ofNat (48 + n % 10)]

/-- Decimal rendering of a natural number, as the Python f-string does. -/
def natToChars (n : Nat) : List Char := if n = 0 then ['0'] else natToCharsAux n n

/-- The `while new_name in existing_names` loop of `generate_unique_name`.
The candidate sequence `base, base_1, base_2, …` leaves any finite
`existing` set within `existing.length + 1` steps, which the caller
supplies as fuel. -/
def genUniqueAux (base : List Char) (existing : List (List Char)) :
    List Char → Nat → Nat → List Char
  | cur, _, 0 => cur
  | cur, counter, fuel + 1 =>
    if cur ∈ existing then
      genUniqueAux base existing (base ++ '_' :: natToChars counter) (counter + 1) fuel
    else cur

/-- Model of `generate_unique_name(base_name, existing_names)`. -/
def generate_unique_name (base : List Char) (existing : List (List Char)) : List Char :=
  genUniqueAux base existing base 1 (existing.length + 1)

/-- A Liferay document subfolder as seen by the scripts. -/
structure SubFolder where
  id : Nat
  name : List Char
deriving DecidableEq

/-- The blank-title fallback at the top of `create_or_get_subfolder`:
`if not subfolder_name.strip(): subfolder_name = "SEM TITULO"`. -/
def effectiveName (name : List Char) : List Char :=
  if name.all Char.isWhitespace then "SEM TITULO".toList else name

/-- State of the Liferay subfolder listing under one fixed parent folder,
with a fresh-id counter modelling server id allocation. -/
structure SubfolderState where
  subfolders : List SubFolder
  nextId : Nat
deriving DecidableEq

/-- Model of `create_or_get_subfolder` run against a healthy server (all requests
succeed), as a state transformer.  `none` models an uncaught exception
(only `sanitize_folder_title` runs outside the `try` block, and it never
raises here because `effectiveName` is never empty). -/
def create_or_get_subfolder_run (parent : Nat) (name : List Char) (st : SubfolderState) :
    Option (Nat × SubfolderState) :=
  match sanitize_folder_title (effectiveName name) with
  | none => none
  | some sanitized =>
    let existing := st.subfolders.map (fun f => f.name)
    let unique := generate_unique_name sanitized existing
    match st.subfolders.find? (fun f => f.name = unique) with
    | some f => some (f.id, st)
    | none =>
      some (st.nextId, ⟨st.subfolders ++ [⟨st.nextId, unique⟩], st.nextId + 1⟩)

/-- Outcome of one HTTP call as the Python code distinguishes them:
success, `requests.exceptions.HTTPError` (from `raise_for_status`), or
any other exception. -/
inductive Res (α : Type) where
  | ok (a : α)
  | httpError
  | otherError
deriving DecidableEq

/-- The contingency branch of `create_or_get_subfolder` (the inner
`try` in the `except HTTPError` handler): list subfolders again, create
under a regenerated name, return the parent id on any exception. -/
def subfolderRetry (parent : Nat) (r3 : Res (List SubFolder)) (r4 : Res Nat) : Nat :=
  match r3 with
  | .ok _ =>
    match r4 with
    | .ok fid => fid
    | _ => parent
  | _ => parent

/-- Model of `create_or_get_subfolder` with the outcome of each of its four HTTP
calls supplied by an oracle (`r1` first listing, `r2` first creation,
`r3` retry listing, `r4` retry creation).  `none` models an uncaught
exception escaping the function. -/
def create_or_get_subfolder_res (parent : Nat) (name : List Char)
    (r1 : Res (List SubFolder)) (r2 : Res Nat)
    (r3 : Res (List SubFolder)) (r4 : Res Nat) : Option Nat :=
  match sanitize_folder_title (effectiveName name) with
  | none => none
  | some sanitized =>
    some <|
      match r1 with
      | .ok folders =>
        let existing := folders.map (fun f => f.name)
        let unique := generate_unique_name sanitized existing
        match folders.find? (fun f => f.name = unique) with
        | some f => f.id
        | none =>
          match r2 with
          | .ok fid => fid
          | .httpError => subfolderRetry parent r3 r4
          | .otherError => parent
      | .httpError => subfolderRetry parent r3 r4
      | .otherError => parent

/-- Whether an HTTP call succeeded. -/
def Res.succeeded {α : Type} : Res α → Bool
  | .ok _ => true
  | _ => false

/-- The first creation attempt raises: either the initial listing fails,
or no listed subfolder carries the freshly generated unique name (which
is always the case, see `C1`) and the creation request fails. -/
def initialAttemptFails (name : List Char) (r1 : Res (List SubFolder)) (r2 : Res Nat) : Prop :=
  match r1 with
  | .ok folders =>
    folders.find? (fun f => f.name =
      generate_unique_name ((sanitize_folder_title (effectiveName name)).getD [])
        (folders.map (fun f => f.name))) = none ∧
    r2.succeeded = false
  | _ => True

/-- The contingency branch fails to create a folder: one of its two
requests raises. -/
def retryFails (r3 : Res (List SubFolder)) (r4 : Res Nat) : Prop :=
  r3.succeeded = false ∨ r4.succeeded = false

/-- Fact: `effectiveName` is never the empty string, so the sanitizer outside
the `try` block never raises. -/
theorem sanitize_effectiveName_isSome (name : List Char) :
    (sanitize_folder_title (effectiveName name)).isSome := by
  rw [effectiveName]
  split
  · decide
  · next h =>
    rw [sanitize_folder_title]
    have hne : name ≠ [] := by
      rintro rfl
      exact h (by decide)
    rw [if_neg hne]
    rfl

/-! ## WordPress pagination (`get_categories_wordpress.py`, `create_folders.py`,
`create_news.py`) -/

/-- One WordPress REST response: HTTP status, decoded JSON body (items
are identified by numbers), and the `X-WP-TotalPages` header (defaulting
to 1 when absent, as `int(response.headers.get("X-WP-TotalPages", 1))`
does). -/
structure WPResponse where
  status : Nat
  body : List Nat
  totalPages : Nat
deriving DecidableEq

/-- Page size `per_page = 100` used by every paginated fetch. -/
def per_page : Nat := 100

/-- The `while True` loop of `get_all_categories`: the list holds the
successive successful page bodies the server returns; a request past the
end of the list receives an empty page.  Returns the collected items and
the number of page requests issued. -/
def getAllCategoriesLoop : List (List Nat) → List Nat × Nat
  | [] => ([], 1)
  | p :: rest =>
    if p.length = 0 then (p, 1)
    else
      let r := getAllCategoriesLoop rest
      (p ++ r.1, r.2 + 1)

/-- Model of `get_all_categories` of the Category Mapper. -/
def get_all_categories (pages : List (List Nat)) : List Nat × Nat :=
  getAllCategoriesLoop pages

/-- The `while True` loop of the Image Migrator's `get_posts_by_category`:
stops (with the page included) when a page has fewer than `per_page`
items, and silently breaks — before accumulating — on a failed request
(any non-200 status makes `raise_for_status` raise, which the
`except RequestException` handler turns into `break`).  Returns the
accumulated posts and the number of requests issued. -/
def getPostsLoop : List WPResponse → List Nat × Nat
  | [] => ([], 0)
  | r :: rest =>
    if r.status = 200 then
      if r.body.length < per_page then (r.body, 1)
      else
        let p := getPostsLoop rest
        (r.body ++ p.1, p.2 + 1)
    else ([], 1)

/-- Model of `get_posts_by_category`, fed the stream of responses the server gives
to its successive page requests. -/
def get_posts_by_category (responses : List WPResponse) : List Nat × Nat :=
  getPostsLoop responses

/-- The per-category `while True` loop of the Content Migrator's
`fetch_posts`: accumulates 200-responses, stops once the page counter
reaches the `X-WP-TotalPages` header, and raises (models as
`Except.error`) on any non-200 response. -/
def fetchPostsCatLoop : List WPResponse → Nat → Except String (List Nat)
  | [], _ => Except.ok []
  | r :: rest, page =>
    if r.status = 200 then
      if r.totalPages ≤ page then Except.ok r.body
      else
        match fetchPostsCatLoop rest (page + 1) with
        | Except.ok ps => Except.ok (r.body ++ ps)
        | Except.error e => Except.error e
    else Except.error "non-200"

/-- Model of `fetch_posts` of the Content Migrator: with no mapped categories it
issues one request with `per_page = 100` and returns that single page;
otherwise it runs the paginated per-category loop for each category. -/
def fetch_posts (cats : List Nat) (respNoCat : WPResponse)
    (respCat : Nat → List WPResponse) : Except String (List Nat) :=
  if cats.isEmpty then
    if respNoCat.status = 200 then Except.ok respNoCat.body
    else Except.error "non-200"
  else
    cats.foldlM (fun acc c =>
      match fetchPostsCatLoop (respCat c) 1 with
      | Except.ok ps => Except.ok (acc ++ ps)
      | Except.error e => Except.error e) []

/-- A well-behaved WordPress server over a fixed list of posts: page `p`
with size `perPage` returns the corresponding slice, with status 200 and
the usual ceiling page count. -/
def wpServer (allPosts : List Nat) (page perPage : Nat) : WPResponse :=
  { status := 200
    body := (allPosts.drop ((page - 1) * perPage)).take perPage
    totalPages := (allPosts.length + perPage - 1) / perPage }

/-! ## URL mapping persistence and the second pass (`create_news.py`) -/

/-- One entry of `url_mapping.json`. -/
structure UrlMap where
  original_url : List Char
  new_url : List Char
deriving DecidableEq

/-- Model of `save_new_url_mapping`: read the persisted list, append one entry,
write the whole list back.  The persisted file content is the state. -/
def save_new_url_mapping (persisted : List UrlMap) (original_url new_url : List Char) :
    List UrlMap :=
  persisted ++ [⟨original_url, new_url⟩]

/-- Model of `replace_internal_links` (textually identical to `replace_image_urls`):
apply each mapping entry in file order as a literal substring replace. -/
def replace_internal_links (content : List Char) (url_mapping : List UrlMap) : List Char :=
  url_mapping.foldl (fun c m => strReplace c m.original_url m.new_url) content

/-- A Liferay structured-content record, with the fields the migration
touches plus representative fields it must leave alone. -/
structure ContentRecord where
  id : Nat
  friendlyUrlPath : List Char
  title : List Char
  textoMateria : List Char
  chamada : List Char
deriving DecidableEq

/-- One entry of a `contentFields` payload. -/
structure ContentField where
  name : List Char
  data : List Char
deriving DecidableEq

/-- A PATCH request against `structured-contents/{id}`. -/
structure PatchRequest where
  contentId : Nat
  contentFields : List ContentField
deriving DecidableEq

def textoMateriaName : List Char := "TextoMateria".toList

def chamadaName : List Char := "Chamada".toList

/-- How the server applies one content field of a PATCH payload, by name. -/
def applyField (r : ContentRecord) (f : ContentField) : ContentRecord :=
  if f.name = textoMateriaName then { r with textoMateria := f.data }
  else if f.name = chamadaName then { r with chamada := f.data }
  else r

/-- How the server applies a PATCH payload: each named field updates the
record; fields not in the payload keep their value. -/
def applyPatch (r : ContentRecord) (fs : List ContentField) : ContentRecord :=
  fs.foldl applyField r

/-- The payload built by `update_content_in_liferay`: exactly one field,
`TextoMateria`. -/
def update_content_payload (updated_html : List Char) : List ContentField :=
  [⟨textoMateriaName, updated_html⟩]

/-- Model of `get_content_id_by_friendly_url`: the exact-match filter query of the
content store, returning the id of the first hit. -/
def get_content_id_by_friendly_url (store : List ContentRecord) (friendly_url : List Char) :
    Option Nat :=
  match store.filter (fun r => r.friendlyUrlPath = friendly_url) with
  | [] => none
  | r :: _ => some r.id

/-- Model of `update_content_in_liferay`: issue the single-field PATCH and apply
it to the matching record of the store. -/
def update_content_in_liferay (store : List ContentRecord) (content_id : Nat)
    (updated_html : List Char) : PatchRequest × List ContentRecord :=
  (⟨content_id, update_content_payload updated_html⟩,
   store.map (fun r =>
     if r.id = content_id then applyPatch r (update_content_payload updated_html) else r))

/-- The body of the second-pass loop of `main` for one post: look the
record up by friendly URL; if found, rewrite the original raw content
with the accumulated mapping and PATCH only when the result differs.
Returns the PATCH request issued (if any) and the resulting store. -/
def second_pass_step (store : List ContentRecord) (content_html friendly_url : List Char)
    (url_mapping : List UrlMap) : Option PatchRequest × List ContentRecord :=
  match get_content_id_by_friendly_url store friendly_url with
  | none => (none, store)
  | some cid =>
    let updated := replace_internal_links content_html url_mapping
    if updated ≠ content_html then
      let r := update_content_in_liferay store cid updated
      (some r.1, r.2)
    else (none, store)

/-! ## Claims -/

/-- C1: the claim says calling `create_or_get_subfolder` twice with the
same parent and name returns the same id and creates no second folder.
The code violates this: `generate_unique_name` always returns a name
absent from the sibling listing, so the "subfolder already exists" branch
is unreachable and every call creates a fresh folder.  Starting from a
parent with no subfolders, the first call for "Foo" creates folder 100
named "Foo"; the second call for the same name creates a second folder
101 named "Foo_1" and returns a different id. -/
theorem claim_C1_duplicate_creation :
    create_or_get_subfolder_run 1 "Foo".toList ⟨[], 100⟩
      = some (100, ⟨[⟨100, "Foo".toList⟩], 101⟩) ∧
    create_or_get_subfolder_run 1 "Foo".toList ⟨[⟨100, "Foo".toList⟩], 101⟩
      = some (101, ⟨[⟨100, "Foo".toList⟩, ⟨101, "Foo_1".toList⟩], 102⟩) ∧
    (100 : Nat) ≠ 101 :=
  ⟨by decide, by decide, by decide⟩

/-- C2: the claim says `fetch_posts` with no mapped categories returns
all posts for every source size.  The code issues exactly one request
with `per_page = 100` and no pagination, so a source holding 101 posts
yields only the first 100. -/
theorem claim_C2_first_page_only :
    fetch_posts [] (wpServer (List.range 101) 1 100) (fun _ => []) = Except.ok (List.range 100) ∧
    List.range 100 ≠ List.range 101 := by
  constructor
  · simp [fetch_posts, wpServer, List.take_range]
  · intro h
    have := congrArg List.length h
    simp at this

/-- C3 counterexample: on pages of sizes `[2, 1]` the claim demands the
result `[1, 2]` after a single request (page 1 already has fewer than
100 items), but `get_all_categories` only stops on an empty page: it
collects all three items in three requests. -/
theorem claim_C3_counterexample :
    get_all_categories [[1, 2], [3]] = ([1, 2, 3], 3) ∧
    get_all_categories [[1, 2], [3]] ≠ ([1, 2], 1) := by
  constructor <;> decide

/-- C3 (amended): `get_all_categories` terminates exactly when a page
returns zero items; its result is the concatenation of the pages before
the first empty page, and no page beyond the first empty one is
requested (the request count is the position of the first empty page,
independently of any later pages). -/
theorem claim_C3_amended (pre post : List (List Nat)) (h : ∀ p ∈ pre, p ≠ []) :
    get_all_categories (pre ++ [] :: post) = (pre.flatten, pre.length + 1) := by
  induction pre with
  | nil => simp [get_all_categories, getAllCategoriesLoop]
  | cons p ps ih =>
    have hp : p.length ≠ 0 := by
      simpa using h p (by simp)
    have ihv := ih (fun q hq => h q (by simp [hq]))
    simp only [get_all_categories] at ihv ⊢
    simp only [List.cons_append, getAllCategoriesLoop, if_neg hp, List.append_eq, ihv,
      List.flatten_cons, List.length_cons]

/-- C3 witness: with nonempty pages `[1,2]`, `[3]`, then an empty page
followed by a further page `[9]`, the fetch returns the three items in
three requests and never asks for the fourth page. -/
theorem claim_C3_witness :
    get_all_categories [[1, 2], [3], [], [9]] = ([1, 2, 3], 3) := by
  simpa using claim_C3_amended [[1, 2], [3]] [[9]] (by decide)

/-- C4: `sanitize_folder_title` raises on the empty title; otherwise it
returns a name free of the characters `<>:"/\|?*`, of length at most
255, and carrying the `_safe` suffix whenever the stripped name equals a
reserved word case-insensitively. -/
theorem claim_C4_sanitize (title : List Char) :
    (title = [] → sanitize_folder_title title = none) ∧
    (title ≠ [] →
      ∃ r, sanitize_folder_title title = some r ∧
        (∀ c ∈ invalid_chars, c ∉ r) ∧
        r.length ≤ 255 ∧
        ((strippedTitle title).map Char.toLower ∈ reserved_names →
          r = strippedTitle title ++ "_safe".toList)) := by
  constructor
  · rintro rfl; rfl
  · intro hne
    rw [sanitize_folder_title, if_neg hne]
    set t := strippedTitle title with ht
    by_cases hres : t.map Char.toLower ∈ reserved_names
    · refine ⟨(t ++ "_safe".toList).take 255, by simp [hres], ?_, ?_, ?_⟩
      · intro c hc hmem
        have hc' : c ∈ t ++ "_safe".toList := List.take_subset _ _ hmem
        rcases List.mem_append.mp hc' with h1 | h2
        · exact not_mem_invalid_of_mem_strippedTitle h1 hc
        · have hsafe : ∀ c ∈ "_safe".toList, c ∉ invalid_chars := by decide
          exact hsafe c h2 hc
      · simp [List.length_take]
      · intro _
        have hlen4 : t.length ≤ 4 := by
          have hr : ∀ w ∈ reserved_names, w.length ≤ 4 := by decide
          have := hr _ hres
          simpa using this
        exact List.take_of_length_le (by simp; omega)
    · refine ⟨t.take 255, by simp [hres], ?_, ?_, fun hmem => absurd hmem hres⟩
      · intro c hc hmem
        exact not_mem_invalid_of_mem_strippedTitle (List.take_subset _ _ hmem) hc
      · simp [List.length_take]

/-- C4 witness: the reserved title "con" sanitizes to "con_safe", which
is free of invalid characters and short. -/
theorem claim_C4_witness :
    ∃ r, sanitize_folder_title "con".toList = some r ∧
      (∀ c ∈ invalid_chars, c ∉ r) ∧
      r.length ≤ 255 ∧
      ((strippedTitle "con".toList).map Char.toLower ∈ reserved_names →
        r = strippedTitle "con".toList ++ "_safe".toList) :=
  (claim_C4_sanitize "con".toList).2 (by decide)

/-- C10: `sanitize_folder_title` raises exactly on the empty input, and
a non-empty title made only of invalid characters sanitizes, without
raising, to the empty name because the emptiness check happens before
character removal. -/
theorem claim_C10_error_only_on_empty (title : List Char) :
    (sanitize_folder_title title = none ↔ title = []) ∧
    (title ≠ [] → (∀ c ∈ title, c ∈ invalid_chars) → sanitize_folder_title title = some []) := by
  constructor
  · constructor
    · intro h
      by_contra hne
      rw [sanitize_folder_title, if_neg hne] at h
      exact Option.noConfusion h
    · rintro rfl; rfl
  · intro hne hall
    have ht1 : removeInvalid title = [] := by
      rw [List.eq_nil_iff_forall_not_mem]
      intro x hx
      exact not_mem_invalid_of_mem_removeInvalid hx
        (hall x ((removeInvalid_sublist title).subset hx))
    have hstr : strippedTitle title = [] := by
      rw [strippedTitle_eq, ht1]
      simp
    rw [sanitize_folder_title, if_neg hne, hstr]
    decide

/-- C10 witness: the all-invalid title "???" sanitizes to the empty name
without raising. -/
theorem claim_C10_witness :
    sanitize_folder_title "???".toList = some [] :=
  (claim_C10_error_only_on_empty "???".toList).2 (by decide) (by decide)

/-- Reaching a non-200 page makes the Content Migrator's per-category
loop return an error, whatever it accumulated on the earlier pages. -/
theorem fetchLoop_error_of_failing_page (good : List WPResponse) :
    ∀ (page : Nat) (f : WPResponse) (rest : List WPResponse),
      (∀ r ∈ good, r.status = 200) →
      (∀ (i : Nat) (r : WPResponse), good[i]? = some r → page + i < r.totalPages) →
      f.status ≠ 200 →
      ∃ e, fetchPostsCatLoop (good ++ f :: rest) page = Except.error e := by
  induction good with
  | nil =>
    intro page f rest _ _ hf
    refine ⟨"non-200", ?_⟩
    simp [fetchPostsCatLoop, hf]
  | cons g gs ih =>
    intro page f rest hst htp hf
    have hg : g.status = 200 := hst g (by simp)
    have hgt : page < g.totalPages := by
      have := htp 0 g (by simp)
      simpa using this
    obtain ⟨e, he⟩ := ih (page + 1) f rest (fun r hr => hst r (by simp [hr]))
      (fun i r hi => by
        have := htp (i + 1) r (by simpa using hi)
        omega) hf
    refine ⟨e, ?_⟩
    simp only [List.cons_append, fetchPostsCatLoop]
    rw [if_pos hg, if_neg (not_le.mpr hgt)]
    simp only [List.append_eq]
    rw [he]

/-- Reaching a non-200 page makes the Image Migrator's loop stop and
return the posts accumulated on the earlier pages, never raising. -/
theorem getPostsLoop_partial_of_failing_page (good : List WPResponse) :
    ∀ (f : WPResponse) (rest : List WPResponse),
      (∀ r ∈ good, r.status = 200 ∧ ¬ r.body.length < per_page) →
      f.status ≠ 200 →
      getPostsLoop (good ++ f :: rest)
        = ((good.map (fun r => r.body)).flatten, good.length + 1) := by
  induction good with
  | nil =>
    intro f rest _ hf
    simp [getPostsLoop, hf]
  | cons g gs ih =>
    intro f rest hst hf
    obtain ⟨hg, hglen⟩ := hst g (by simp)
    have ihv := ih f rest (fun r hr => hst r (by simp [hr])) hf
    simp only [List.cons_append, getPostsLoop]
    rw [if_pos hg, if_neg hglen]
    simp [ihv]

/-- C5: when a response stream serves full 200-pages and then a non-200
page, the Content Migrator's `fetch_posts` (here with at least one
mapped category) raises — its per-category loop returns an error that
aborts the whole fetch — while the Image Migrator's
`get_posts_by_category` on the same stream silently breaks and returns
the posts accumulated so far. -/
theorem claim_C5_error_policy (good : List WPResponse) (f : WPResponse)
    (rest : List WPResponse) (c : Nat) (cats : List Nat) (rnc : WPResponse)
    (hgood : ∀ r ∈ good, r.status = 200 ∧ ¬ r.body.length < per_page)
    (htp : ∀ (i : Nat) (r : WPResponse), good[i]? = some r → i + 1 < r.totalPages)
    (hf : f.status ≠ 200) :
    (∃ e, fetchPostsCatLoop (good ++ f :: rest) 1 = Except.error e) ∧
    (∃ e, fetch_posts (c :: cats) rnc (fun _ => good ++ f :: rest) = Except.error e) ∧
    get_posts_by_category (good ++ f :: rest)
      = ((good.map (fun r => r.body)).flatten, good.length + 1) := by
  have h1 := fetchLoop_error_of_failing_page good 1 f rest (fun r hr => (hgood r hr).1)
    (fun i r hi => by simpa [Nat.add_comm] using htp i r hi) hf
  refine ⟨h1, ?_, getPostsLoop_partial_of_failing_page good f rest hgood hf⟩
  obtain ⟨e, he⟩ := h1
  refine ⟨e, ?_⟩
  rw [fetch_posts]
  simp only [List.isEmpty_cons, Bool.false_eq_true, if_false, List.foldlM_cons, he]
  simp [Bind.bind, Except.bind]

/-- C5 witness: one full page of 100 posts followed by a 500 response:
the Content Migrator errors (stand-alone loop and `fetch_posts` with one
category), the Image Migrator returns the 100 accumulated posts after
two requests. -/
theorem claim_C5_witness :
    (∃ e, fetchPostsCatLoop ([⟨200, List.range 100, 3⟩] ++ ⟨500, [], 1⟩ :: []) 1
      = Except.error e) ∧
    (∃ e, fetch_posts [7] ⟨200, [], 1⟩ (fun _ => [⟨200, List.range 100, 3⟩] ++ ⟨500, [], 1⟩ :: [])
      = Except.error e) ∧
    get_posts_by_category ([⟨200, List.range 100, 3⟩] ++ ⟨500, [], 1⟩ :: [])
      = (([(⟨200, List.range 100, 3⟩ : WPResponse)].map (fun r => r.body)).flatten,
         List.length [(⟨200, List.range 100, 3⟩ : WPResponse)] + 1) := by
  refine claim_C5_error_policy [⟨200, List.range 100, 3⟩] ⟨500, [], 1⟩ [] 7 [] ⟨200, [], 1⟩
    ?_ ?_ (by decide)
  · rintro r hr
    simp only [List.mem_singleton] at hr
    subst hr
    exact ⟨rfl, by simp [per_page]⟩
  · intro i r hi
    cases i with
    | zero =>
      simp only [List.getElem?_cons_zero, Option.some.injEq] at hi
      subst hi
      decide
    | succ n => simp at hi

/-- C6: a paginated posts endpoint whose successive pages have sizes
100, 100, 37 makes `get_posts_by_category` aggregate exactly 237 items
and stop after the third page: the request counter is 3 and the result
does not depend on any page past the third. -/
theorem claim_C6_pagination (b1 b2 b3 : List Nat) (rest : List WPResponse)
    (h1 : b1.length = 100) (h2 : b2.length = 100) (h3 : b3.length = 37) :
    get_posts_by_category (⟨200, b1, 3⟩ :: ⟨200, b2, 3⟩ :: ⟨200, b3, 3⟩ :: rest)
      = (b1 ++ (b2 ++ b3), 3) ∧ (b1 ++ (b2 ++ b3)).length = 237 := by
  constructor
  · simp [get_posts_by_category, getPostsLoop, per_page, h1, h2, h3]
  · simp [h1, h2, h3]

/-- C6 witness: concrete pages of sizes 100, 100 and 37 with no fourth
page yield the 237 aggregated items in three requests. -/
theorem claim_C6_witness :
    get_posts_by_category
        (⟨200, List.range 100, 3⟩ :: ⟨200, List.range 100, 3⟩ :: ⟨200, List.range 37, 3⟩ :: [])
      = (List.range 100 ++ (List.range 100 ++ List.range 37), 3) ∧
    (List.range 100 ++ (List.range 100 ++ List.range 37)).length = 237 :=
  claim_C6_pagination _ _ _ [] (by simp) (by simp) (by simp)

/-- C7: in the second pass, for a post whose record is found by friendly
URL, a PATCH is issued exactly when rewriting the original raw content
with the accumulated mapping changes it; the issued PATCH carries only
the `TextoMateria` field, and applying such a payload leaves every other
field of a record unchanged. -/
theorem claim_C7_second_pass (store : List ContentRecord) (content_html friendly_url : List Char)
    (url_mapping : List UrlMap) (cid : Nat)
    (h : get_content_id_by_friendly_url store friendly_url = some cid) :
    ((second_pass_step store content_html friendly_url url_mapping).1.isSome ↔
      replace_internal_links content_html url_mapping ≠ content_html) ∧
    (replace_internal_links content_html url_mapping = content_html →
      (second_pass_step store content_html friendly_url url_mapping).2 = store) ∧
    (replace_internal_links content_html url_mapping ≠ content_html →
      (second_pass_step store content_html friendly_url url_mapping).1
        = some ⟨cid, [⟨textoMateriaName, replace_internal_links content_html url_mapping⟩]⟩ ∧
      (second_pass_step store content_html friendly_url url_mapping).2
        = store.map (fun r => if r.id = cid then
            { r with textoMateria := replace_internal_links content_html url_mapping } else r)) ∧
    (∀ (r : ContentRecord) (d : List Char),
      applyPatch r (update_content_payload d) = { r with textoMateria := d }) := by
  have happ : ∀ (r : ContentRecord) (d : List Char),
      applyPatch r (update_content_payload d) = { r with textoMateria := d } := by
    intro r d
    simp [applyPatch, update_content_payload, applyField, textoMateriaName]
  by_cases hu : replace_internal_links content_html url_mapping = content_html
  · have hstep : second_pass_step store content_html friendly_url url_mapping = (none, store) := by
      simp [second_pass_step, h, hu]
    rw [hstep]
    exact ⟨by simpa using hu, fun _ => rfl, fun hne => absurd hu hne, happ⟩
  · have hstep : second_pass_step store content_html friendly_url url_mapping
        = (some ⟨cid, [⟨textoMateriaName, replace_internal_links content_html url_mapping⟩]⟩,
           store.map (fun r => if r.id = cid then
             { r with textoMateria := replace_internal_links content_html url_mapping } else r)) := by
      simp only [second_pass_step, h, update_content_in_liferay, update_content_payload]
      rw [if_pos hu]
      refine Prod.ext rfl ?_
      simp only []
      refine List.map_congr_left ?_
      intro a _
      split
      · simp [applyPatch, applyField, textoMateriaName]
      · rfl
    rw [hstep]
    exact ⟨by simpa using hu, fun heq => absurd heq hu, fun _ => ⟨rfl, rfl⟩, happ⟩

/-- C7 witness: a store with one record under slug "p", original content
"x" and mapping x→y: the second pass issues exactly the single-field
`TextoMateria` PATCH carrying "y". -/
theorem claim_C7_witness :
    (second_pass_step [⟨5, "p".toList, "t".toList, "x".toList, "e".toList⟩] "x".toList "p".toList
        [⟨"x".toList, "y".toList⟩]).1
      = some ⟨5, [⟨textoMateriaName, "y".toList⟩]⟩ := by
  have h := (claim_C7_second_pass [⟨5, "p".toList, "t".toList, "x".toList, "e".toList⟩]
    "x".toList "p".toList [⟨"x".toList, "y".toList⟩] 5 (by decide)).2.2.1 (by decide)
  exact h.1.trans (by decide)

/-- C8: `save_new_url_mapping` appends exactly one entry at the end of
the persisted sequence, keeps every previously persisted entry unchanged
and in place, and lets duplicates accumulate when the same pair is saved
again. -/
theorem claim_C8_append_only (persisted : List UrlMap) (o n : List Char) :
    save_new_url_mapping persisted o n = persisted ++ [⟨o, n⟩] ∧
    (save_new_url_mapping persisted o n).take persisted.length = persisted ∧
    (save_new_url_mapping persisted o n).length = persisted.length + 1 ∧
    2 ≤ (save_new_url_mapping (save_new_url_mapping persisted o n) o n).count ⟨o, n⟩ := by
  refine ⟨rfl, ?_, by simp [save_new_url_mapping], ?_⟩
  · simp [save_new_url_mapping, List.take_left]
  · simp [save_new_url_mapping, List.count_append]

/-- Retry failure makes the contingency branch return the parent id. -/
theorem subfolderRetry_eq_parent (parent : Nat) (r3 : Res (List SubFolder)) (r4 : Res Nat)
    (h : retryFails r3 r4) : subfolderRetry parent r3 r4 = parent := by
  cases r3 <;> cases r4 <;> simp_all [subfolderRetry, retryFails, Res.succeeded]

/-- C9: `create_or_get_subfolder` never propagates an exception — it
always returns an id — and when both the initial creation attempt and
the contingency retry fail it returns the parent folder id itself. -/
theorem claim_C9_fallback_to_parent (parent : Nat) (name : List Char)
    (r1 : Res (List SubFolder)) (r2 : Res Nat) (r3 : Res (List SubFolder)) (r4 : Res Nat) :
    (∃ v, create_or_get_subfolder_res parent name r1 r2 r3 r4 = some v) ∧
    (initialAttemptFails name r1 r2 → retryFails r3 r4 →
      create_or_get_subfolder_res parent name r1 r2 r3 r4 = some parent) := by
  obtain ⟨s, hs⟩ := Option.isSome_iff_exists.mp (sanitize_effectiveName_isSome name)
  constructor
  · rw [create_or_get_subfolder_res.eq_def, hs]
    exact ⟨_, rfl⟩
  · intro hinit hretry
    rw [create_or_get_subfolder_res.eq_def, hs]
    cases r1 with
    | ok folders =>
      simp only [initialAttemptFails, hs, Option.getD_some] at hinit
      obtain ⟨hfind, hr2⟩ := hinit
      simp only [Option.some.injEq]
      rw [hfind]
      cases r2 with
      | ok fid => simp [Res.succeeded] at hr2
      | httpError => rw [subfolderRetry_eq_parent parent r3 r4 hretry]
      | otherError => rfl
    | httpError =>
      simp only [Option.some.injEq]
      rw [subfolderRetry_eq_parent parent r3 r4 hretry]
    | otherError => rfl

/-- C9 witness: with the first listing and both retry calls failing, the
call returns the parent folder id 7 instead of raising. -/
theorem claim_C9_witness :
    create_or_get_subfolder_res 7 "x".toList Res.httpError Res.httpError
      Res.otherError Res.otherError = some 7 :=
  (claim_C9_fallback_to_parent 7 "x".toList Res.httpError Res.httpError
    Res.otherError Res.otherError).2 (by trivial) (Or.inl rfl)

end Migrador
